import Mathlib

/-!
Verification model of `src/http_server_flash.ts` from the oak repository:
the `FlashServer` class bridging the Deno flash serve engine (push-style,
one handler call per request) to a pull-style consumer draining an
asynchronous iterator.

The embedding is a shallow state-passing model.  A `World` carries the
private fields of a `FlashServer` instance together with the heap objects
those fields reference (readable streams, response deferreds, the
listener-bound deferreds) and the list of error events dispatched to the
`Application` collaborator.  The engine is external: its calls back into
the server (`onListen`, `onError`, the per-request `handler`) are modelled
as events applied to the world, and its behaviour at shutdown time is an
explicit environment parameter of `close`.
-/

/-- Raw HTTP request handed to the handler by the engine; opaque payload. -/
abbrev RawRequest := Nat

/-- Resolved address reported by the engine to the onListen callback. -/
structure Addr where
  hostname : String
  port : Nat
deriving DecidableEq, Repr

/-- The `Listener` value with which `listen()` resolves: `{ addr }`. -/
structure Listener where
  addr : Addr
deriving DecidableEq, Repr

/-- An HTTP response value as produced by the onError callback or by the
consumer resolving a request deferred. -/
structure Response where
  status : Nat
  statusText : String
  body : String
deriving DecidableEq, Repr

/-- Modelled from the spec: the `deferred` utility imported from `deps.ts`
(it is not part of `src/`).  A single-assignment future with states
pending, resolved and rejected; `resolve`/`reject` settle it exactly once
and are no-ops afterwards. -/
inductive DeferredState (α : Type) where
  | pending
  | resolved (v : α)
  | rejected (e : String)
deriving DecidableEq, Repr

/-- Modelled from the spec: resolving a deferred transitions
pending to resolved and is a no-op on an already settled deferred. -/
def DeferredState.resolve (d : DeferredState α) (v : α) : DeferredState α :=
  match d with
  | .pending => .resolved v
  | s => s

/-- Modelled from the spec: rejecting a deferred transitions
pending to rejected and is a no-op on an already settled deferred. -/
def DeferredState.reject (d : DeferredState α) (e : String) : DeferredState α :=
  match d with
  | .pending => .rejected e
  | s => s

/-- A settle attempt on a deferred: either a resolve or a reject. -/
inductive SettleOp (α : Type) where
  | res (v : α)
  | rej (e : String)
deriving DecidableEq, Repr

/-- Apply one settle attempt to a deferred state. -/
def applyOp (d : DeferredState α) : SettleOp α → DeferredState α
  | .res v => d.resolve v
  | .rej e => d.reject e

/-- The queued request entry: `new HttpRequest(request, resolve)` pairs the
raw request with (the id of) its response deferred. -/
structure HttpRequest where
  request : RawRequest
  responseId : Nat
deriving DecidableEq, Repr

/-- The underlying `ReadableStream<HttpRequest>`: the queue of enqueued,
not yet consumed entries, and whether the producer side has been closed via
the controller. -/
structure StreamState where
  queue : List HttpRequest
  producerClosed : Bool
deriving DecidableEq, Repr

/-- `controller.enqueue(entry)`: appends to the stream queue; throws (none)
when the stream does not exist or its producer side is already closed. -/
def ctlEnqueue (streams : List StreamState) (sid : Nat) (e : HttpRequest) :
    Option (List StreamState) :=
  match streams[sid]? with
  | none => none
  | some st =>
    if st.producerClosed then none
    else some (streams.set sid { st with queue := st.queue ++ [e] })

/-- `controller.close()`: closes the producer side of the stream; already
queued entries remain for the consumer to drain. -/
def ctlClose (streams : List StreamState) (sid : Nat) : List StreamState :=
  match streams[sid]? with
  | none => streams
  | some st => streams.set sid { st with producerClosed := true }

/-- The options bag given to the `FlashServer` constructor
(`FlashServerOptions = Omit<Partial<ServeTlsInit>, "onListen" | "signal">`);
an absent field is `none`. -/
structure FlashServerOptions where
  port : Option Nat
  hostname : Option String
  cert : Option String
  key : Option String
deriving DecidableEq, Repr

/-- The merged options object built inside `listen()`: the spread of the
caller-supplied options plus the injected abort signal and the onListen and
onError callbacks.  `signal` records the aborted state of the abort signal
of the server at the time of the call (the signal passed is always that one
shared signal); `onListen` records which listener deferred the callback
resolves; `onError` records that the error callback is installed. -/
structure MergedOptions where
  port : Option Nat
  hostname : Option String
  cert : Option String
  key : Option String
  signal : Option Bool
  onListen : Option Nat
  onError : Bool
deriving DecidableEq, Repr

/-- `isServeTlsInit(value)`: `"cert" in value && "key" in value`. -/
def isServeTlsInit (o : MergedOptions) : Bool :=
  o.cert.isSome && o.key.isSome

/-- Which engine entry point `listen()` invoked. -/
inductive EntryPoint where
  | plain
  | tls
deriving DecidableEq, Repr

/-- The host environment: whether `Deno.serve` and `Deno.serveTls` exist. -/
structure Host where
  serveAvailable : Bool
  serveTlsAvailable : Bool
deriving DecidableEq, Repr

/-- The module-level `serve` binding: `"serve" in Deno ? Deno.serve.bind(Deno)
: undefined`. -/
def serveBinding (h : Host) : Option Unit :=
  if h.serveAvailable then some () else none

/-- The module-level `serveTls` binding, defined the same way. -/
def serveTlsBinding (h : Host) : Option Unit :=
  if h.serveTlsAvailable then some () else none

/-- `hasFlash()`: `!!(serve && serveTls)`. -/
def hasFlash (h : Host) : Bool :=
  (serveBinding h).isSome && (serveTlsBinding h).isSome

/-- The private fields of a `FlashServer` instance.  `controller` and
`stream` hold the id of the referenced stream in the stream heap;
`aborted` is the state of the one `AbortController` created at
construction; `servePromise` is the stored reference to the promise
returned by the engine entry point. -/
structure FlashServerState where
  closed : Bool
  controller : Option Nat
  aborted : Bool
  servePromise : Option Unit
  stream : Option Nat
  options : FlashServerOptions
deriving DecidableEq, Repr

/-- The whole mutable world: the server instance fields, the heap of
readable streams, the heap of per-request response deferreds, the heap of
listener-bound deferreds, and the error events dispatched to the
application collaborator. -/
structure World where
  server : FlashServerState
  streams : List StreamState
  responses : List (DeferredState Response)
  listenerDefs : List (DeferredState Listener)
  appErrors : List String
deriving DecidableEq, Repr

namespace FlashServer

/-- The `FlashServer` constructor: throws when either engine binding is
missing, otherwise stores the application and options on a fresh instance
(fresh abort controller, nothing listening yet). -/
def construct (h : Host) (opts : FlashServerOptions) : Except String World :=
  if !(serveBinding h).isSome || !(serveTlsBinding h).isSome then
    Except.error "The flash bindings for serving HTTP are not available."
  else
    Except.ok
      { server :=
          { closed := false
            controller := none
            aborted := false
            servePromise := none
            stream := none
            options := opts }
        streams := []
        responses := []
        listenerDefs := []
        appErrors := [] }

end FlashServer

/-- The onListen callback closure of `listen()`: `(addr) => p.resolve({ addr })`
for the listener deferred `p` with id `pId`. -/
def onListenCb (pId : Nat) (addr : Addr) (w : World) : World :=
  { w with
    listenerDefs :=
      w.listenerDefs.set pId
        ((w.listenerDefs.getD pId DeferredState.pending).resolve ⟨addr⟩) }

/-- `Status.InternalServerError` from the imported status module. -/
def statusInternalServerError : Nat := 500

/-- `STATUS_TEXT[Status.InternalServerError]` from the imported status
module. -/
def statusTextInternalServerError : String := "Internal Server Error"

/-- The onError callback closure of `listen()`: dispatches one `ErrorEvent`
carrying the error to the application and returns a generic
internal-server-error response to the engine. -/
def onErrorCb (err : String) (w : World) : World × Response :=
  ({ w with appErrors := w.appErrors ++ [err] },
   { status := statusInternalServerError
     statusText := statusTextInternalServerError
     body := "Internal server error" })

/-- The per-request handler closure of `listen()`: allocate a fresh response
deferred, build the `HttpRequest` entry pairing the raw request with it,
enqueue the entry on the captured controller, and return the deferred (its
id) to the engine.  `none` in the second component means the enqueue threw
(producer side already closed); note the deferred was still allocated
before the throw. -/
def handlerCb (sid : Nat) (req : RawRequest) (w : World) : World × Option Nat :=
  let rid := w.responses.length
  let w1 := { w with responses := w.responses ++ [DeferredState.pending] }
  match ctlEnqueue w1.streams sid { request := req, responseId := rid } with
  | none => (w1, none)
  | some ss => ({ w1 with streams := ss }, some rid)

/-- What `listen()` hands to the engine entry point it invokes. -/
structure EngineStart where
  entry : EntryPoint
  opts : MergedOptions
  listenerDefId : Nat
  streamId : Nat
deriving DecidableEq, Repr

/-- Result of a call to `listen()`: the updated world, the id of the
listener deferred `p` whose future is returned to the caller, and the
engine invocation that was made. -/
structure ListenOutcome where
  world : World
  pId : Nat
  start : EngineStart
deriving DecidableEq, Repr

namespace FlashServer

/-- `listen()`: create the deferred `p`; construct a `ReadableStream` whose
start callback (run synchronously) stores the fresh controller, builds the
merged options (spread of the stored options plus the shared abort signal
and the onListen and onError callbacks), and invokes `serveTls` when
`isServeTlsInit(options)` holds and `serve` otherwise, storing the returned
promise; finally store the stream and return `p`.  No lifecycle state is
checked. -/
def listen (w : World) : ListenOutcome :=
  let pId := w.listenerDefs.length
  let w := { w with listenerDefs := w.listenerDefs ++ [DeferredState.pending] }
  let sid := w.streams.length
  let w := { w with streams := w.streams ++ [({ queue := [], producerClosed := false } : StreamState)] }
  let w := { w with server := { w.server with controller := some sid } }
  let merged : MergedOptions :=
    { port := w.server.options.port
      hostname := w.server.options.hostname
      cert := w.server.options.cert
      key := w.server.options.key
      signal := some w.server.aborted
      onListen := some pId
      onError := true }
  let entry := if isServeTlsInit merged then EntryPoint.tls else EntryPoint.plain
  let w := { w with server := { w.server with servePromise := some () } }
  let w := { w with server := { w.server with stream := some sid } }
  { world := w
    pId := pId
    start := { entry := entry, opts := merged, listenerDefId := pId, streamId := sid } }

/-- `[Symbol.asyncIterator]()`: assert that the stream reference is set,
then return the iterator of that stream (here, its id); the assert fails
synchronously with the invalid-state message otherwise. -/
def asyncIterator (w : World) : Except String Nat :=
  match w.server.stream with
  | none => Except.error ".listen() was not called before iterating or server is closed."
  | some sid => Except.ok sid

end FlashServer

/-- The consumer side of the asynchronous iteration: draining the stream
yields exactly the queued entries in FIFO order. -/
def iterateAll (w : World) (sid : Nat) : List HttpRequest :=
  match w.streams[sid]? with
  | none => []
  | some st => st.queue

/-- The consumer resolving the response deferred of an entry with a
response value. -/
def resolveResponse (w : World) (rid : Nat) (resp : Response) : World :=
  { w with
    responses :=
      w.responses.set rid ((w.responses.getD rid DeferredState.pending).resolve resp) }

/-- What the engine awaits from the future the handler returned: the
settled value, once the deferred is resolved. -/
def engineAwait (w : World) (rid : Nat) : Option Response :=
  match w.responses[rid]? with
  | some (DeferredState.resolved v) => some v
  | _ => none

/-- One interaction of the running engine with the server: a successful
bind reported through onListen, a bind failure (which only rejects the
promise the engine returned, calling none of the installed callbacks), an
incoming request dispatched to the handler, or a per-request error reported
through onError. -/
inductive EngineEvent where
  | bindSuccess (addr : Addr)
  | bindFailure (e : String)
  | request (r : RawRequest)
  | reqError (e : String)
deriving DecidableEq, Repr

/-- Apply one engine event to the world, through the callbacks recorded in
the engine start. -/
def applyEngineEvent (es : EngineStart) (w : World) : EngineEvent → World
  | .bindSuccess addr => onListenCb es.listenerDefId addr w
  | .bindFailure _ => w
  | .request r => (handlerCb es.streamId r w).1
  | .reqError e => (onErrorCb e w).1

/-- Run a sequence of engine events. -/
def runEngine (es : EngineStart) (w : World) : List EngineEvent → World
  | [] => w
  | ev :: evs => runEngine es (applyEngineEvent es w ev) evs

/-- Behaviour of the external engine at the operations `close()` performs on
it: whether `controller.close()` throws (it does when the stream is no
longer readable) and whether the awaited serve-loop promise rejects. -/
structure Env where
  controllerCloseThrows : Bool
  serveLoopRejects : Bool
deriving DecidableEq, Repr

/-- Observable side effects of the teardown performed by `close()`, in the
order they are executed. -/
inductive Effect where
  | closeController
  | discardController
  | discardStream
  | abortSignal
  | awaitServe
deriving DecidableEq, Repr

/-- Result of a call to `close()` (or of its try block): the updated world,
the trace of side effects that ran, and the error that escaped, if any. -/
structure CloseOutcome where
  world : World
  steps : List Effect
  err : Option String
deriving DecidableEq, Repr

namespace FlashServer

/-- The tail of the try block of `close()` after the optional
`controller.close()` call: discard the controller and stream references,
abort the shared abort controller, and, when a serve promise is stored,
await it (clearing the reference only when the await does not reject). -/
def teardownTail (w : World) (pre : List Effect) (env : Env) : CloseOutcome :=
  let w := { w with server :=
    { w.server with controller := none, stream := none, aborted := true } }
  let steps := pre ++ [Effect.discardController, Effect.discardStream, Effect.abortSignal]
  match w.server.servePromise with
  | none => { world := w, steps := steps, err := none }
  | some _ =>
    if env.serveLoopRejects then
      { world := w, steps := steps ++ [Effect.awaitServe], err := some "serve loop rejected" }
    else
      { world := { w with server := { w.server with servePromise := none } }
        steps := steps ++ [Effect.awaitServe]
        err := none }

/-- The try block of `close()`: `controller?.close()` (a no-op when no
controller is stored, a throw when the engine environment says the stream
is not readable), then the teardown tail. -/
def teardown (w : World) (env : Env) : CloseOutcome :=
  match w.server.controller with
  | none => teardownTail w [] env
  | some sid =>
    if env.controllerCloseThrows then
      { world := w, steps := [], err := some "controller close threw" }
    else
      teardownTail { w with streams := ctlClose w.streams sid }
        [Effect.closeController] env

/-- `close()`: return immediately when already closed; otherwise set the
closed flag, run the teardown inside try/catch, and swallow any error the
teardown raised. -/
def close (w : World) (env : Env) : CloseOutcome :=
  if w.server.closed then { world := w, steps := [], err := none }
  else
    let t := teardown { w with server := { w.server with closed := true } } env
    { world := t.world, steps := t.steps, err := none }

/-- A sequence of `close()` calls (the single-threaded scheduler runs the
synchronous prefix of each call, which contains the closed check and the
whole teardown, atomically, so concurrent calls interleave as a sequence).
Returns the final world and how many of the calls entered the teardown. -/
def runCloses : World → List Env → World × Nat
  | w, [] => (w, 0)
  | w, env :: envs =>
    let started := if w.server.closed then 0 else 1
    let r := runCloses (close w env).world envs
    (r.1, started + r.2)

end FlashServer

/-- The entries the handler builds for a run of requests, in submission
order: request `i` of the run is paired with the fresh response deferred
allocated at heap index `base + i`. -/
def mkEntries (base : Nat) : List RawRequest → List HttpRequest
  | [] => []
  | r :: rs => { request := r, responseId := base } :: mkEntries (base + 1) rs

/-- The engine invoking the handler once per request of a run, in order;
returns the final world and, per request, the deferred the handler handed
back to the engine (none when the enqueue threw). -/
def runHandlers (sid : Nat) (w : World) : List RawRequest → World × List (Option Nat)
  | [] => (w, [])
  | r :: rs =>
    let h := handlerCb sid r w
    let rest := runHandlers sid h.1 rs
    (rest.1, h.2 :: rest.2)

/-- Does a deferred hold a rejection? -/
def DeferredState.isRejected : DeferredState α → Bool
  | .rejected _ => true
  | _ => false

/-- Is an engine event the successful-bind callback? -/
def EngineEvent.isBindSuccess : EngineEvent → Bool
  | .bindSuccess _ => true
  | _ => false

/-! ## Helper lemmas -/

/-- A concrete freshly constructed server world, as produced by the
constructor on a capable host with an empty options bag. -/
def sampleWorld : World :=
  { server :=
      { closed := false
        controller := none
        aborted := false
        servePromise := none
        stream := none
        options := { port := none, hostname := none, cert := none, key := none } }
    streams := []
    responses := []
    listenerDefs := []
    appErrors := [] }

theorem applyOp_settled {α : Type} (d : DeferredState α) (o : SettleOp α)
    (h : d ≠ DeferredState.pending) : applyOp d o = d := by
  cases d with
  | pending => exact absurd rfl h
  | resolved v => cases o <;> rfl
  | rejected e => cases o <;> rfl

theorem foldl_applyOp_settled {α : Type} (ops : List (SettleOp α)) :
    ∀ d : DeferredState α, d ≠ DeferredState.pending →
      List.foldl applyOp d ops = d := by
  induction ops with
  | nil => intro d _; rfl
  | cons o os ih =>
    intro d h
    rw [List.foldl_cons, applyOp_settled d o h]
    exact ih d h

/-! ## Claims -/

/-- Claim C8: every deferred created by the component settles at most once:
the first resolve or reject fixes the value permanently, any later resolve
or reject attempt is a no-op, every observer sees the first settled value;
and both the per-request response deferred allocated by the handler and the
listener deferred allocated by listen() start out pending. -/
theorem deferred_settles_at_most_once :
    (∀ (α : Type) (op : SettleOp α) (ops : List (SettleOp α)),
        List.foldl applyOp (applyOp DeferredState.pending op) ops =
          applyOp DeferredState.pending op ∧
        applyOp DeferredState.pending op ≠ DeferredState.pending) ∧
    (∀ (w : World) (sid : Nat) (r : RawRequest),
        (handlerCb sid r w).1.responses[w.responses.length]? =
          some DeferredState.pending) ∧
    (∀ w : World,
        (FlashServer.listen w).world.listenerDefs[(FlashServer.listen w).pId]? =
          some DeferredState.pending) := by
  refine ⟨?_, ?_, ?_⟩
  · intro α op ops
    have hset : applyOp (DeferredState.pending : DeferredState α) op ≠
        DeferredState.pending := by
      cases op <;> simp [applyOp, DeferredState.resolve, DeferredState.reject]
    exact ⟨foldl_applyOp_settled ops _ hset, hset⟩
  · intro w sid r
    simp only [handlerCb]
    split <;> simp [List.getElem?_concat_length]
  · intro w
    simp [FlashServer.listen, List.getElem?_concat_length]

/-- Witness for C8: a deferred first resolved and then both rejected and
re-resolved keeps its first value. -/
theorem deferred_settles_at_most_once_witness :
    List.foldl applyOp
        (applyOp (DeferredState.pending : DeferredState Response)
          (SettleOp.res { status := 200, statusText := "OK", body := "ok" }))
        [SettleOp.rej "late", SettleOp.res { status := 204, statusText := "", body := "" }] =
      applyOp DeferredState.pending
        (SettleOp.res { status := 200, statusText := "OK", body := "ok" }) :=
  (deferred_settles_at_most_once.1 Response
    (SettleOp.res { status := 200, statusText := "OK", body := "ok" })
    [SettleOp.rej "late", SettleOp.res { status := 204, statusText := "", body := "" }]).1

/-- Claim C6: for every per-request error reported through the onError
callback, exactly one error event carrying that error is dispatched to the
application, nothing else in the world changes, and the callback returns a
generic 500 internal-server-error response. -/
theorem onError_notifies_app_and_returns_500 :
    ∀ (w : World) (err : String),
      (onErrorCb err w).1.appErrors = w.appErrors ++ [err] ∧
      (onErrorCb err w).1.server = w.server ∧
      (onErrorCb err w).1.streams = w.streams ∧
      (onErrorCb err w).1.responses = w.responses ∧
      (onErrorCb err w).1.listenerDefs = w.listenerDefs ∧
      (onErrorCb err w).2.status = 500 ∧
      500 ≤ (onErrorCb err w).2.status ∧
      (onErrorCb err w).2.status < 600 ∧
      (onErrorCb err w).2.statusText = "Internal Server Error" ∧
      (onErrorCb err w).2.body = "Internal server error" := by
  intro w err
  refine ⟨rfl, rfl, rfl, rfl, rfl, rfl, ?_, ?_, rfl, rfl⟩ <;>
    simp [onErrorCb, statusInternalServerError]

/-- Claim C7: listen() picks the TLS entry point exactly when both cert and
key are present in the stored options, and passes the caller options merged
with the shared abort signal and the onListen and onError callbacks. -/
theorem listen_entry_point_selection :
    ∀ w : World,
      ((FlashServer.listen w).start.entry = EntryPoint.tls ↔
        w.server.options.cert.isSome = true ∧ w.server.options.key.isSome = true) ∧
      (FlashServer.listen w).start.opts.port = w.server.options.port ∧
      (FlashServer.listen w).start.opts.hostname = w.server.options.hostname ∧
      (FlashServer.listen w).start.opts.cert = w.server.options.cert ∧
      (FlashServer.listen w).start.opts.key = w.server.options.key ∧
      (FlashServer.listen w).start.opts.signal = some w.server.aborted ∧
      (FlashServer.listen w).start.opts.onListen = some (FlashServer.listen w).pId ∧
      (FlashServer.listen w).start.opts.onError = true := by
  intro w
  refine ⟨?_, rfl, rfl, rfl, rfl, rfl, rfl, rfl⟩
  by_cases hc : w.server.options.cert.isSome = true <;>
    by_cases hk : w.server.options.key.isSome = true <;>
    simp [FlashServer.listen, isServeTlsInit, hc, hk]

/-- Claim C9: the constructor throws exactly when hasFlash() is false, and
a host exposing only the plaintext entry point is unsupported. -/
theorem constructor_capability_check :
    (∀ (h : Host) (opts : FlashServerOptions),
        ((FlashServer.construct h opts).isOk = true ↔ hasFlash h = true)) ∧
    hasFlash { serveAvailable := true, serveTlsAvailable := false } = false ∧
    FlashServer.construct { serveAvailable := true, serveTlsAvailable := false }
        { port := none, hostname := none, cert := none, key := none } =
      Except.error "The flash bindings for serving HTTP are not available." := by
  refine ⟨?_, rfl, rfl⟩
  intro h opts
  cases h with
  | mk sa stls =>
    cases sa <;> cases stls <;>
      simp [FlashServer.construct, hasFlash, serveBinding, serveTlsBinding, Except.isOk,
        Except.toBool]

/-- Claim C10: listen() checks no lifecycle state: on every world it
constructs a fresh stream, overwrites the stored stream, controller and
serve-promise references, leaves the closed flag and the shared abort
signal as they are, and hands the engine that same signal. -/
theorem listen_unconditional_restart :
    ∀ w : World,
      (FlashServer.listen w).world.server.stream = some w.streams.length ∧
      (FlashServer.listen w).world.server.controller = some w.streams.length ∧
      w.streams[w.streams.length]? = none ∧
      (FlashServer.listen w).world.streams[w.streams.length]? =
        some { queue := [], producerClosed := false } ∧
      (FlashServer.listen w).world.streams.length = w.streams.length + 1 ∧
      (FlashServer.listen w).world.server.servePromise = some () ∧
      (FlashServer.listen w).world.server.aborted = w.server.aborted ∧
      (FlashServer.listen w).world.server.closed = w.server.closed ∧
      (FlashServer.listen w).world.server.options = w.server.options ∧
      (FlashServer.listen w).start.opts.signal = some w.server.aborted := by
  intro w
  refine ⟨rfl, rfl, List.getElem?_eq_none (Nat.le_refl _), ?_, ?_, rfl, rfl, rfl, rfl, rfl⟩
  · simp [FlashServer.listen, List.getElem?_concat_length]
  · simp [FlashServer.listen]

theorem teardownTail_fields (w : World) (pre : List Effect) (env : Env) :
    (FlashServer.teardownTail w pre env).world.server.closed = w.server.closed ∧
    (FlashServer.teardownTail w pre env).world.server.stream = none ∧
    (FlashServer.teardownTail w pre env).world.server.controller = none ∧
    (FlashServer.teardownTail w pre env).world.server.aborted = true := by
  cases h : w.server.servePromise with
  | none => simp [FlashServer.teardownTail, h]
  | some u =>
    cases hr : env.serveLoopRejects with
    | false => simp [FlashServer.teardownTail, h, hr]
    | true => simp [FlashServer.teardownTail, h, hr]

theorem teardown_fields (w : World) (env : Env)
    (h : env.controllerCloseThrows = false) :
    (FlashServer.teardown w env).world.server.closed = w.server.closed ∧
    (FlashServer.teardown w env).world.server.stream = none := by
  cases hc : w.server.controller with
  | none =>
    simp only [FlashServer.teardown, hc]
    exact ⟨(teardownTail_fields w [] env).1, (teardownTail_fields w [] env).2.1⟩
  | some sid =>
    simp only [FlashServer.teardown, hc, h, Bool.false_eq_true, if_false]
    constructor
    · exact (teardownTail_fields _ _ env).1
    · exact (teardownTail_fields _ _ env).2.1

theorem teardown_preserves_closed (w : World) (env : Env) :
    (FlashServer.teardown w env).world.server.closed = w.server.closed := by
  cases hc : w.server.controller with
  | none =>
    simp only [FlashServer.teardown, hc]
    exact (teardownTail_fields w [] env).1
  | some sid =>
    simp only [FlashServer.teardown, hc]
    cases ht : env.controllerCloseThrows with
    | true => simp
    | false =>
      simp only [Bool.false_eq_true, if_false]
      exact (teardownTail_fields _ _ env).1

theorem close_world_closed (w : World) (env : Env) :
    (FlashServer.close w env).world.server.closed = true := by
  by_cases h : w.server.closed = true
  · simp [FlashServer.close, h]
  · simp only [FlashServer.close]
    rw [if_neg h]
    exact teardown_preserves_closed _ env

/-- Claim C3: close() never rejects (the try/catch swallows every teardown
error), a call on an already closed server is an immediate no-op, and any
sequence of close() calls runs the teardown exactly once (zero times when
the server was already closed or no call is made). -/
theorem close_idempotent_and_never_rejects :
    (∀ (w : World) (env : Env), (FlashServer.close w env).err = none) ∧
    (∀ (w : World) (env : Env), w.server.closed = true →
        FlashServer.close w env = { world := w, steps := [], err := none }) ∧
    (∀ (w : World) (envs : List Env),
        (FlashServer.runCloses w envs).2 =
          if w.server.closed = true then 0 else min envs.length 1) := by
  refine ⟨?_, ?_, ?_⟩
  · intro w env
    by_cases h : w.server.closed <;> simp [FlashServer.close, h]
  · intro w env h
    simp [FlashServer.close, h]
  · intro w envs
    induction envs generalizing w with
    | nil => simp [FlashServer.runCloses]
    | cons env envs ih =>
      rw [FlashServer.runCloses]
      by_cases h : w.server.closed
      · have hnoop : FlashServer.close w env = { world := w, steps := [], err := none } := by
          simp [FlashServer.close, h]
        simp [h, hnoop, ih]
      · have hc : (FlashServer.close w env).world.server.closed = true :=
          close_world_closed w env
        simp [h, ih, hc]

/-- Witness for C3: a second close() call on the closed world is a no-op,
through the theorem. -/
theorem close_idempotent_witness :
    (FlashServer.close (FlashServer.listen sampleWorld).world
        { controllerCloseThrows := false, serveLoopRejects := false }).world.server.closed = true ∧
    FlashServer.close
        (FlashServer.close (FlashServer.listen sampleWorld).world
          { controllerCloseThrows := false, serveLoopRejects := false }).world
        { controllerCloseThrows := false, serveLoopRejects := true } =
      { world := (FlashServer.close (FlashServer.listen sampleWorld).world
            { controllerCloseThrows := false, serveLoopRejects := false }).world
        steps := []
        err := none } :=
  ⟨rfl, close_idempotent_and_never_rejects.2.1
    (FlashServer.close (FlashServer.listen sampleWorld).world
      { controllerCloseThrows := false, serveLoopRejects := false }).world
    { controllerCloseThrows := false, serveLoopRejects := true } rfl⟩

/-- Claim C4: the first close() after listen() runs its side effects in
exactly this order: close the stream controller (producer side), discard
the controller reference, discard the stream reference, abort the shared
signal, then await the serve-loop promise. -/
theorem close_after_listen_effect_order :
    ∀ (w : World) (env : Env),
      w.server.closed = false → env.controllerCloseThrows = false →
      (FlashServer.close (FlashServer.listen w).world env).steps =
        [Effect.closeController, Effect.discardController, Effect.discardStream,
         Effect.abortSignal, Effect.awaitServe] := by
  intro w env h1 h2
  cases hr : env.serveLoopRejects with
  | false =>
    simp [FlashServer.close, FlashServer.listen, FlashServer.teardown,
      FlashServer.teardownTail, h1, h2, hr]
  | true =>
    simp [FlashServer.close, FlashServer.listen, FlashServer.teardown,
      FlashServer.teardownTail, h1, h2, hr]

/-- Witness for C4: the side-effect order on a concrete freshly
constructed, listening server. -/
theorem close_after_listen_effect_order_witness :
    sampleWorld.server.closed = false ∧
    (Env.mk false false).controllerCloseThrows = false ∧
    (FlashServer.close (FlashServer.listen sampleWorld).world
        { controllerCloseThrows := false, serveLoopRejects := false }).steps =
      [Effect.closeController, Effect.discardController, Effect.discardStream,
       Effect.abortSignal, Effect.awaitServe] :=
  ⟨rfl, rfl, close_after_listen_effect_order sampleWorld
    { controllerCloseThrows := false, serveLoopRejects := false } rfl rfl⟩

/-- Claim C5: accessing the asynchronous-iteration accessor on a freshly
constructed server (before listen() has produced a stream), or after
close() has torn the stream down, fails synchronously with the
invalid-state assertion message instead of yielding entries. -/
theorem asyncIterator_precondition :
    (∀ (h : Host) (opts : FlashServerOptions) (w : World),
        FlashServer.construct h opts = Except.ok w →
        FlashServer.asyncIterator w =
          Except.error ".listen() was not called before iterating or server is closed.") ∧
    (∀ (w : World) (env : Env),
        w.server.closed = false → env.controllerCloseThrows = false →
        FlashServer.asyncIterator (FlashServer.close w env).world =
          Except.error ".listen() was not called before iterating or server is closed.") := by
  constructor
  · intro h opts w hc
    unfold FlashServer.construct at hc
    split at hc
    · exact absurd hc (by simp)
    · cases hc
      rfl
  · intro w env h1 h2
    have hs : (FlashServer.close w env).world.server.stream = none := by
      simp only [FlashServer.close, h1, Bool.false_eq_true, if_false]
      exact (teardown_fields _ env h2).2
    simp [FlashServer.asyncIterator, hs]

/-- Witness for C5: both failure modes on concrete worlds, through the
theorem. -/
theorem asyncIterator_precondition_witness :
    FlashServer.construct { serveAvailable := true, serveTlsAvailable := true }
        { port := none, hostname := none, cert := none, key := none } =
      Except.ok sampleWorld ∧
    FlashServer.asyncIterator sampleWorld =
      Except.error ".listen() was not called before iterating or server is closed." :=
  ⟨rfl, asyncIterator_precondition.1
    { serveAvailable := true, serveTlsAvailable := true }
    { port := none, hostname := none, cert := none, key := none } sampleWorld rfl⟩

theorem applyEngineEvent_listenerDefs (es : EngineStart) (w : World) (ev : EngineEvent)
    (h : ev.isBindSuccess = false) :
    (applyEngineEvent es w ev).listenerDefs = w.listenerDefs := by
  cases ev with
  | bindSuccess a => simp [EngineEvent.isBindSuccess] at h
  | bindFailure e => rfl
  | request r =>
    simp only [applyEngineEvent, handlerCb]
    split <;> rfl
  | reqError e => rfl

theorem runEngine_listenerDefs (es : EngineStart) (evs : List EngineEvent) :
    ∀ w : World, (∀ ev ∈ evs, ev.isBindSuccess = false) →
      (runEngine es w evs).listenerDefs = w.listenerDefs := by
  induction evs with
  | nil => intro w _; rfl
  | cons ev evs ih =>
    intro w h
    rw [runEngine, ih _ (fun e he => h e (List.mem_cons_of_mem _ he)),
      applyEngineEvent_listenerDefs es w ev (h ev (List.mem_cons_self _ _))]

/-- Counterexample to claim C1: on a concrete freshly constructed server,
after listen() and an engine run in which the bind fails (the engine never
calls onListen and its serve promise rejects), the listener-bound future
returned by listen() is still pending — it has not been rejected, contrary
to the claim that the bind error is surfaced by rejecting that future. -/
theorem bind_failure_future_not_rejected_counterexample :
    ((runEngine (FlashServer.listen sampleWorld).start (FlashServer.listen sampleWorld).world
          [EngineEvent.bindFailure "EADDRINUSE"]).listenerDefs.getD
        (FlashServer.listen sampleWorld).pId DeferredState.pending).isRejected = false ∧
    (runEngine (FlashServer.listen sampleWorld).start (FlashServer.listen sampleWorld).world
          [EngineEvent.bindFailure "EADDRINUSE"]).listenerDefs[(FlashServer.listen sampleWorld).pId]? =
      some DeferredState.pending :=
  ⟨rfl, rfl⟩

/-- Claim C1 as amended: when the engine cannot bind, the listener-bound
future returned from listen() is not rejected — it remains pending for any
engine run that never fires the onListen callback (the bind error only
rejects the internally stored serve promise, which close() later awaits
inside its try/catch and swallows). -/
theorem bind_failure_leaves_listen_future_pending :
    ∀ (h : Host) (opts : FlashServerOptions) (w : World) (evs : List EngineEvent),
      FlashServer.construct h opts = Except.ok w →
      (∀ ev ∈ evs, ev.isBindSuccess = false) →
      (runEngine (FlashServer.listen w).start (FlashServer.listen w).world
          evs).listenerDefs[(FlashServer.listen w).pId]? = some DeferredState.pending := by
  intro h opts w evs hc hevs
  unfold FlashServer.construct at hc
  split at hc
  · exact absurd hc (by simp)
  · cases hc
    rw [runEngine_listenerDefs _ _ _ hevs]
    rfl

/-- Witness for the amended C1: a concrete bind-failure run, through the
theorem. -/
theorem bind_failure_leaves_listen_future_pending_witness :
    FlashServer.construct { serveAvailable := true, serveTlsAvailable := true }
        { port := none, hostname := none, cert := none, key := none } =
      Except.ok sampleWorld ∧
    (∀ ev ∈ [EngineEvent.bindFailure "EADDRINUSE"], ev.isBindSuccess = false) ∧
    (runEngine (FlashServer.listen sampleWorld).start (FlashServer.listen sampleWorld).world
        [EngineEvent.bindFailure "EADDRINUSE"]).listenerDefs[(FlashServer.listen sampleWorld).pId]? =
      some DeferredState.pending :=
  ⟨rfl, by simp [EngineEvent.isBindSuccess],
    bind_failure_leaves_listen_future_pending
      { serveAvailable := true, serveTlsAvailable := true }
      { port := none, hostname := none, cert := none, key := none }
      sampleWorld [EngineEvent.bindFailure "EADDRINUSE"] rfl
      (by simp [EngineEvent.isBindSuccess])⟩

theorem mkEntries_map_request (base : Nat) (reqs : List RawRequest) :
    (mkEntries base reqs).map HttpRequest.request = reqs := by
  induction reqs generalizing base with
  | nil => rfl
  | cons r rs ih => simp [mkEntries, ih]

theorem mkEntries_length (base : Nat) (reqs : List RawRequest) :
    (mkEntries base reqs).length = reqs.length := by
  induction reqs generalizing base with
  | nil => rfl
  | cons r rs ih => simp [mkEntries, ih]

theorem mkEntries_responseId_bounds (base : Nat) (reqs : List RawRequest) :
    ∀ e ∈ mkEntries base reqs, base ≤ e.responseId ∧ e.responseId < base + reqs.length := by
  induction reqs generalizing base with
  | nil => intro e he; simp [mkEntries] at he
  | cons r rs ih =>
    intro e he
    simp only [mkEntries, List.mem_cons] at he
    rcases he with rfl | he
    · simp only [List.length_cons]
      omega
    · obtain ⟨hge, hlt⟩ := ih (base + 1) e he
      simp only [List.length_cons]
      omega

theorem runHandlers_spec (sid : Nat) (reqs : List RawRequest) :
    ∀ (w : World) (st : StreamState),
      w.streams[sid]? = some st → st.producerClosed = false →
      (runHandlers sid w reqs).1.responses =
          w.responses ++ List.replicate reqs.length DeferredState.pending ∧
      (runHandlers sid w reqs).1.streams[sid]? =
          some { st with queue := st.queue ++ mkEntries w.responses.length reqs } ∧
      (runHandlers sid w reqs).2 =
          (mkEntries w.responses.length reqs).map (fun e => some e.responseId) := by
  induction reqs with
  | nil =>
    intro w st h1 h2
    refine ⟨by simp [runHandlers], ?_, by simp [runHandlers, mkEntries]⟩
    simpa [runHandlers, mkEntries] using h1
  | cons r rs ih =>
    intro w st h1 h2
    have hlt : sid < w.streams.length := (List.getElem?_eq_some.1 h1).1
    have hstep : handlerCb sid r w =
        ({ w with
            responses := w.responses ++ [DeferredState.pending]
            streams := w.streams.set sid
              { st with
                queue := st.queue ++ [{ request := r, responseId := w.responses.length }] } },
          some w.responses.length) := by
      simp only [handlerCb, ctlEnqueue]
      simp [h1, h2]
    have hq : ({ w with
          responses := w.responses ++ [DeferredState.pending]
          streams := w.streams.set sid
            { st with
              queue := st.queue ++ [{ request := r, responseId := w.responses.length }] } }
          : World).streams[sid]? =
        some { st with
          queue := st.queue ++ [{ request := r, responseId := w.responses.length }] } := by
      simp [List.getElem?_set_self', hlt]
    obtain ⟨ha, hb, hc⟩ := ih
      { w with
        responses := w.responses ++ [DeferredState.pending]
        streams := w.streams.set sid
          { st with
            queue := st.queue ++ [{ request := r, responseId := w.responses.length }] } }
      { st with queue := st.queue ++ [{ request := r, responseId := w.responses.length }] }
      hq h2
    refine ⟨?_, ?_, ?_⟩
    · simp only [runHandlers, hstep]
      rw [ha]
      simp [List.replicate_succ]
    · simp only [runHandlers, hstep]
      rw [hb]
      simp [mkEntries, List.append_assoc, List.length_append]
    · simp only [runHandlers, hstep]
      rw [hc]
      simp [mkEntries, List.length_append]

/-- Claim C2: for every run of N requests the engine hands to the handler
of a freshly started listener, the handler allocates a fresh pending
response deferred per request, enqueues an entry pairing the raw request
with that deferred, and returns the same deferred to the engine; draining
the asynchronous iteration yields exactly those N entries in submission
order, and once the consumer resolves the deferred of an entry with a
response, that response is exactly what the engine observes awaiting the
future the handler returned for that request. -/
theorem request_response_correlation :
    ∀ (w0 : World) (reqs : List RawRequest),
      iterateAll (runHandlers (FlashServer.listen w0).start.streamId
          (FlashServer.listen w0).world reqs).1 (FlashServer.listen w0).start.streamId =
        mkEntries w0.responses.length reqs ∧
      (mkEntries w0.responses.length reqs).map HttpRequest.request = reqs ∧
      (mkEntries w0.responses.length reqs).length = reqs.length ∧
      (runHandlers (FlashServer.listen w0).start.streamId
          (FlashServer.listen w0).world reqs).2 =
        (mkEntries w0.responses.length reqs).map (fun e => some e.responseId) ∧
      (∀ e ∈ mkEntries w0.responses.length reqs,
        (runHandlers (FlashServer.listen w0).start.streamId
            (FlashServer.listen w0).world reqs).1.responses[e.responseId]? =
          some DeferredState.pending) ∧
      (∀ e ∈ mkEntries w0.responses.length reqs, ∀ resp : Response,
        engineAwait (resolveResponse (runHandlers (FlashServer.listen w0).start.streamId
            (FlashServer.listen w0).world reqs).1 e.responseId resp) e.responseId =
          some resp) := by
  intro w0 reqs
  have hl1 : (FlashServer.listen w0).world.streams[(FlashServer.listen w0).start.streamId]? =
      some { queue := [], producerClosed := false } := by
    simp [FlashServer.listen, List.getElem?_concat_length]
  obtain ⟨ha, hb, hc⟩ := runHandlers_spec (FlashServer.listen w0).start.streamId reqs
    (FlashServer.listen w0).world { queue := [], producerClosed := false } hl1 rfl
  have hresp : (FlashServer.listen w0).world.responses = w0.responses := rfl
  rw [hresp] at ha hb hc
  have hpend : ∀ e ∈ mkEntries w0.responses.length reqs,
      (runHandlers (FlashServer.listen w0).start.streamId
          (FlashServer.listen w0).world reqs).1.responses[e.responseId]? =
        some DeferredState.pending := by
    intro e he
    obtain ⟨hge, hltb⟩ := mkEntries_responseId_bounds w0.responses.length reqs e he
    rw [ha, List.getElem?_append_right hge]
    have hidx : e.responseId - w0.responses.length < reqs.length := by omega
    simp [List.getElem?_replicate, hidx]
  refine ⟨?_, mkEntries_map_request _ _, mkEntries_length _ _, hc, hpend, ?_⟩
  · simp [iterateAll, hb]
  · intro e he resp
    have hplt : e.responseId <
        (runHandlers (FlashServer.listen w0).start.streamId
          (FlashServer.listen w0).world reqs).1.responses.length :=
      (List.getElem?_eq_some.1 (hpend e he)).1
    simp [engineAwait, resolveResponse, List.getD_eq_getElem?_getD, hpend e he,
      List.getElem?_set_self', hplt, DeferredState.resolve]

/-- Witness for C2: a concrete two-request run on a freshly constructed
server, through the theorem. -/
theorem request_response_correlation_witness :
    iterateAll (runHandlers (FlashServer.listen sampleWorld).start.streamId
        (FlashServer.listen sampleWorld).world [7, 8]).1
        (FlashServer.listen sampleWorld).start.streamId =
      mkEntries sampleWorld.responses.length [7, 8] ∧
    (mkEntries sampleWorld.responses.length [7, 8]).map HttpRequest.request = [7, 8] ∧
    (mkEntries sampleWorld.responses.length [7, 8]).length = ([7, 8] : List RawRequest).length ∧
    (runHandlers (FlashServer.listen sampleWorld).start.streamId
        (FlashServer.listen sampleWorld).world [7, 8]).2 =
      (mkEntries sampleWorld.responses.length [7, 8]).map (fun e => some e.responseId) ∧
    (∀ e ∈ mkEntries sampleWorld.responses.length [7, 8],
      (runHandlers (FlashServer.listen sampleWorld).start.streamId
          (FlashServer.listen sampleWorld).world [7, 8]).1.responses[e.responseId]? =
        some DeferredState.pending) ∧
    (∀ e ∈ mkEntries sampleWorld.responses.length [7, 8], ∀ resp : Response,
      engineAwait (resolveResponse (runHandlers (FlashServer.listen sampleWorld).start.streamId
          (FlashServer.listen sampleWorld).world [7, 8]).1 e.responseId resp) e.responseId =
        some resp) :=
  request_response_correlation sampleWorld [7, 8]
